import Mathlib

/-!
# camera_fb.c: capture frames from a V4L2 device and draw them on a framebuffer

A shallow embedding of `src/testfile.c` (file name in the source: `camera_fb.c`).

Conventions of the embedding:

* `unsigned int` / `__u32` values are natural numbers; every `unsigned int` result is
  reduced modulo `2^32` (`u32`);
* `int` values are integers; `int` arithmetic wraps in two's complement (`int_add`,
  `int_of_u32`), which is what the compilers targeted by this program produce;
* `long int` is 64 bits wide (LP64), so a `long int` sum of two 32-bit values is exact;
* the framebuffer mapping `fbp` is a function from byte offsets to bytes, and the renderer
  is described by the list of byte stores it performs, in program order;
* everything the kernel, the C library and libjpeg answer is an input of the model.
-/

namespace CameraFb

/-! ## C integer arithmetic -/

/-- Value of an `unsigned int` expression: reduction modulo `2^32`. -/
def u32 (n : Nat) : Nat := n % 4294967296

/-- Conversion of an `int` to `unsigned int`. -/
def u32_of_int (z : Int) : Nat := (z % 4294967296).toNat

/-- Conversion of an `unsigned int` to `int` (two's complement). -/
def int_of_u32 (n : Nat) : Int :=
  if n % 4294967296 < 2147483648 then ((n % 4294967296 : Nat) : Int)
  else ((n % 4294967296 : Nat) : Int) - 4294967296

/-- Sum of two `int`s, wrapping in two's complement. -/
def int_add (a b : Int) : Int := int_of_u32 (u32_of_int (a + b))

/-! ## Framebuffer and decoder data -/

/-- Fields of `struct fb_var_screeninfo` that the program reads (all `__u32`). -/
structure fb_var_screeninfo where
  xres : Nat
  yres : Nat
  bits_per_pixel : Nat
  deriving DecidableEq, Repr

/-- Field of `struct fb_fix_screeninfo` that the program reads (`__u32`). -/
structure fb_fix_screeninfo where
  line_length : Nat
  deriving DecidableEq, Repr

/-- What libjpeg delivers after `jpeg_start_decompress` with `out_color_space = JCS_RGB`:
the output dimensions (`JDIMENSION`, an `unsigned int`) and, for every scanline `y`, the
samples `buffer[0][i]` that `jpeg_read_scanlines` stores for that scanline. -/
structure jpeg_decompress_struct where
  output_width : Nat
  output_height : Nat
  scanlines : Nat → Nat → Nat

/-- The mapped length computed by `fb_init` (line 58):
`vinfo.xres * vinfo.yres * vinfo.bits_per_pixel / 8` in `unsigned int` arithmetic. -/
def screensize (vinfo : fb_var_screeninfo) : Int :=
  ((u32 (u32 (vinfo.xres * vinfo.yres) * vinfo.bits_per_pixel) / 8 : Nat) : Int)

/-! ## fb_draw_buffer -/

/-- Lines 100 and 102: `int x_start = (vinfo.xres - cinfo.output_width) / 2;`
followed by `if (x_start < 0) x_start = 0;`. The subtraction and the division are
`unsigned int` operations. -/
def x_start (vinfo : fb_var_screeninfo) (cinfo : jpeg_decompress_struct) : Int :=
  let x_start := int_of_u32 (u32_of_int ((vinfo.xres : Int) - (cinfo.output_width : Int)) / 2)
  if x_start < 0 then 0 else x_start

/-- Lines 101 and 103: `int y_start = (vinfo.yres - cinfo.output_height) / 2;`
followed by `if (y_start < 0) y_start = 0;`. -/
def y_start (vinfo : fb_var_screeninfo) (cinfo : jpeg_decompress_struct) : Int :=
  let y_start := int_of_u32 (u32_of_int ((vinfo.yres : Int) - (cinfo.output_height : Int)) / 2)
  if y_start < 0 then 0 else y_start

/-- The surface row `(y + y_start)` of line 111, converted to `unsigned int` for the
comparison with `vinfo.yres`; `y` is `int y = cinfo.output_scanline`. -/
def surface_row (vinfo : fb_var_screeninfo) (cinfo : jpeg_decompress_struct)
    (output_scanline : Nat) : Nat :=
  u32_of_int (int_add (int_of_u32 output_scanline) (y_start vinfo cinfo))

/-- The surface column `(x + x_start)` of line 119, converted to `unsigned int` for the
comparison with `vinfo.xres`; `n` is the value of the loop counter `int x`. -/
def surface_col (vinfo : fb_var_screeninfo) (cinfo : jpeg_decompress_struct) (n : Nat) : Nat :=
  u32_of_int (int_add (int_of_u32 n) (x_start vinfo cinfo))

/-- Lines 112-113: `location = (x_start * (vinfo.bits_per_pixel / 8)) +
((y + y_start) * finfo.line_length);` computed as `unsigned int`, stored in a `long int`. -/
def location (vinfo : fb_var_screeninfo) (finfo : fb_fix_screeninfo)
    (cinfo : jpeg_decompress_struct) (output_scanline : Nat) : Int :=
  ((u32 (u32 (u32_of_int (x_start vinfo cinfo) * (vinfo.bits_per_pixel / 8))
      + u32 (surface_row vinfo cinfo output_scanline * finfo.line_length)) : Nat) : Int)

/-- Line 120: `long int pixel_location = location + (x * (vinfo.bits_per_pixel / 8));`
the product is an `unsigned int`, the sum a `long int`. -/
def pixel_location (vinfo : fb_var_screeninfo) (finfo : fb_fix_screeninfo)
    (cinfo : jpeg_decompress_struct) (output_scanline n : Nat) : Int :=
  location vinfo finfo cinfo output_scanline
    + ((u32 (u32_of_int (int_of_u32 n) * (vinfo.bits_per_pixel / 8)) : Nat) : Int)

/-- Lines 122-131: the byte stores `*(fbp + offset) = value` for one pixel, in program
order; `row` is `buffer[0]` and `n` the column. No `else` branch follows the 24 bpp case. -/
def store_pixel (vinfo : fb_var_screeninfo) (pixel_location : Int) (row : Nat → Nat) (n : Nat) :
    List (Int × Nat) :=
  if vinfo.bits_per_pixel = 32 then
    [(pixel_location, row (n * 3 + 2)), (pixel_location + 1, row (n * 3 + 1)),
     (pixel_location + 2, row (n * 3 + 0)), (pixel_location + 3, 0)]
  else if vinfo.bits_per_pixel = 24 then
    [(pixel_location, row (n * 3 + 2)), (pixel_location + 1, row (n * 3 + 1)),
     (pixel_location + 2, row (n * 3 + 0))]
  else []

/-- Lines 107-135: one iteration of the scanline loop, as the list of byte stores. -/
def draw_scanline (vinfo : fb_var_screeninfo) (finfo : fb_fix_screeninfo)
    (cinfo : jpeg_decompress_struct) (output_scanline : Nat) : List (Int × Nat) :=
  if surface_row vinfo cinfo output_scanline < vinfo.yres then
    (List.range cinfo.output_width).flatMap fun n =>
      if surface_col vinfo cinfo n < vinfo.xres then
        store_pixel vinfo (pixel_location vinfo finfo cinfo output_scanline n)
          (cinfo.scanlines output_scanline) n
      else []
  else []

/-- Lines 106-136: all byte stores of one render, in program order. -/
def fb_draw_stores (vinfo : fb_var_screeninfo) (finfo : fb_fix_screeninfo)
    (cinfo : jpeg_decompress_struct) : List (Int × Nat) :=
  (List.range cinfo.output_height).flatMap (draw_scanline vinfo finfo cinfo)

/-- One store `*(fbp + s.1) = s.2`. -/
def write_byte (fbp : Int → Nat) (s : Int × Nat) : Int → Nat :=
  fun a => if a = s.1 then s.2 else fbp a

/-- Lines 73-140: `fb_draw_buffer`. `jpeg` is `none` when `jpeg_read_header` does not
return `JPEG_HEADER_OK` (the function returns at line 88), otherwise the decoded image. -/
def fb_draw_buffer (vinfo : fb_var_screeninfo) (finfo : fb_fix_screeninfo)
    (jpeg : Option jpeg_decompress_struct) (fbp : Int → Nat) : Int → Nat :=
  match jpeg with
  | none => fbp
  | some cinfo => (fb_draw_stores vinfo finfo cinfo).foldl write_byte fbp

/-- A test image: `w` by `h`, sample `i` of scanline `y` is `(7 * y + i) % 256`. -/
def test_image (w h : Nat) : jpeg_decompress_struct :=
  { output_width := w, output_height := h, scanlines := fun y i => (7 * y + i) % 256 }

/-! ## Snapshot file names -/

/-- Zero padding of a digit string to a minimum field width (the `0` flag of `printf`). -/
def zero_pad (width : Nat) (digits : List Char) : List Char :=
  List.replicate (width - digits.length) '0' ++ digits

/-- The `printf` conversion `%04d`: decimal digits, a leading `-` for a negative value,
zeros between the sign and the digits up to a field width of 4. -/
def fmt_04d (z : Int) : List Char :=
  if z < 0 then '-' :: zero_pad 3 (Nat.toDigits 10 z.natAbs)
  else zero_pad 4 (Nat.toDigits 10 z.natAbs)

/-- Line 301: the string that `sprintf(filename, "capture_%04d.jpg", file_cnt++)` leaves in
`filename` when `file_cnt` has the value `cnt` before the call. -/
def filename (cnt : Int) : String :=
  "capture_" ++ String.mk (fmt_04d cnt) ++ ".jpg"

/-! ## Process state and observable operations -/

/-- The global variables of lines 19-27 that `main` and `cleanup` use. Pointers are
integers: `0` is the null pointer and `-1` is `MAP_FAILED`. The table `v4l2_bufs` has the
four entries `v4l2_bufs 0` to `v4l2_bufs 3`; a value at an index from 4 on stands for what
a read past the end of the array finds, and no definition stores there. -/
structure Globals where
  fbp : Int
  screensize : Int
  fbfd : Int
  v4l2_fd : Int
  buffer_count : Int
  v4l2_bufs : Nat → Int
  file_cnt : Int

/-- What libjpeg does with the frame handed to `fb_draw_buffer`. -/
inductive Decode where
  /-- `jpeg_read_header` returns `JPEG_HEADER_OK` and the decode runs to the end,
  lines 92-139 -/
  | drawn
  /-- `jpeg_read_header` returns another value: message and `return`, lines 86-88 -/
  | header_refused
  /-- The library reports a fatal error to the error manager installed at line 80
  (`jpeg_std_error`), whose `error_exit` ends the process with `exit(EXIT_FAILURE)` -/
  | error_exit
  deriving DecidableEq, Repr

/-- The calls with an effect outside the process, with their arguments and, where the
program looks at it, their result. -/
inductive Op where
  | ioctl_streamoff (fd : Int)
  | ioctl_querybuf (fd : Int) (index : Nat)
  | ioctl_dqbuf (fd : Int) (result : Option Nat)
  | ioctl_qbuf (fd : Int) (index : Nat) (ret : Int)
  | munmap (addr : Int) (length : Int)
  | close (fd : Int)
  | poll (nfds : Nat) (timeout : Nat) (ret : Int)
  | getchar (ret : Int)
  | sprintf (name : String)
  | sys_open (name : String) (ret : Int)
  | write (fd : Int) (index : Nat) (bytesused : Nat)
  | printf (msg : String)
  | perror (msg : String)
  | fb_draw_buffer (index : Nat) (bytesused : Nat) (decode : Decode)
  | exit (status : Int)
  deriving DecidableEq, Repr

/-! ## cleanup -/

/-- Lines 151-160: the body of the slot loop of `cleanup` for slot `i`; `querybuf i` is
the length reported by `VIDIOC_QUERYBUF`, `none` when that `ioctl` does not return 0. -/
def cleanup_slot (g : Globals) (querybuf : Nat → Option Nat) (i : Nat) : List Op :=
  if g.v4l2_bufs i ≠ 0 then
    Op.ioctl_querybuf g.v4l2_fd i ::
      (match querybuf i with
        | some length => [Op.munmap (g.v4l2_bufs i) (length : Int)]
        | none => [])
  else []

/-- The values of `i` with which the loop of line 150 reads `v4l2_bufs[i]`. -/
def cleanup_indices (g : Globals) : List Nat := List.range g.buffer_count.toNat

/-- Lines 145-173: `cleanup`. It assigns no global variable, so the state it returns is
the state it was given; the second component lists its operations in program order. -/
def cleanup (g : Globals) (querybuf : Nat → Option Nat) : Globals × List Op :=
  (g,
    (if g.v4l2_fd ≠ -1 then
      [Op.ioctl_streamoff g.v4l2_fd, Op.printf "V4L2 stream stopped.\n"]
        ++ (cleanup_indices g).flatMap (cleanup_slot g querybuf)
        ++ [Op.printf "V4L2 buffers unmapped.\n", Op.close g.v4l2_fd]
    else [])
    ++ (if g.fbp ≠ 0 then [Op.munmap g.fbp g.screensize, Op.printf "Framebuffer unmapped.\n"]
        else [])
    ++ (if g.fbfd > 0 then [Op.close g.fbfd] else []))

/-- Two invocations of `cleanup` in succession; the device may answer the slot queries of
the second invocation differently from those of the first. -/
def cleanup_twice (g : Globals) (querybuf₁ querybuf₂ : Nat → Option Nat) :
    Globals × List Op :=
  let first := cleanup g querybuf₁
  let second := cleanup first.1 querybuf₂
  (second.1, first.2 ++ second.2)

/-! ## Capture-device setup: buffer request, map and enqueue -/

/-- How the set-up can stop short: `exit(status)` after a failed call, or a store to
`v4l2_bufs[index]` with `index` outside the 4 entries of the array (line 25), after which
the C program has no defined behaviour. -/
inductive Stop where
  | exit (status : Int)
  | out_of_bounds (index : Nat)
  deriving DecidableEq, Repr

/-- Lines 230-239: `reqbufs` is `none` when `ioctl(VIDIOC_REQBUFS)` fails (`exit(1)`),
otherwise the value the driver leaves in `reqbuffer.count` for the requested count of 4. -/
def request_buffers (g : Globals) (reqbufs : Option Nat) : Except Stop Globals :=
  match reqbufs with
  | none => Except.error (Stop.exit 1)
  | some count => Except.ok { g with buffer_count := int_of_u32 count }

/-- What the device and `mmap` answer for one slot in the loop of lines 242-258. -/
structure SlotAnswers where
  querybuf_ret : Int
  mmap_ret : Int
  qbuf_ret : Int

/-- Lines 242-258 for the loop counter values `is`: returns the indices at which the
assignment of line 251 stored to `v4l2_bufs`, and the state, or how the set-up stopped.
The assignment `v4l2_bufs[i] = mmap(...)` with `4 ≤ i` lies outside the array. -/
def map_and_enqueue (dev : Nat → SlotAnswers) :
    List Nat → Globals → List Nat × Except Stop Globals
  | [], g => ([], Except.ok g)
  | i :: is, g =>
    if (dev i).querybuf_ret < 0 then ([], Except.error (Stop.exit 1))
    else if 4 ≤ i then ([i], Except.error (Stop.out_of_bounds i))
    else
      let g1 := { g with v4l2_bufs := fun j => if j = i then (dev i).mmap_ret else g.v4l2_bufs j }
      if (dev i).mmap_ret = -1 then ([i], Except.error (Stop.exit 1))
      else if (dev i).qbuf_ret < 0 then ([i], Except.error (Stop.exit 1))
      else
        let rest := map_and_enqueue dev is g1
        (i :: rest.1, rest.2)

/-- Lines 230-258: buffer request followed by the map-and-enqueue loop
`for (int i = 0; i < buffer_count; i++)`. -/
def setup_buffers (g : Globals) (reqbufs : Option Nat) (dev : Nat → SlotAnswers) :
    List Nat × Except Stop Globals :=
  match request_buffers g reqbufs with
  | Except.error stop => ([], Except.error stop)
  | Except.ok g1 => map_and_enqueue dev (List.range g1.buffer_count.toNat) g1

/-! ## The main loop -/

/-- What the environment answers during one iteration of the main loop; a field is looked
at only when the iteration reaches the call it belongs to. -/
structure Answers where
  /-- Return value of `poll(fds, 2, 2000)`, line 275 -/
  poll_ret : Int
  /-- Whether `fds[1].revents & POLLIN` is non-zero, line 286 -/
  stdin_pollin : Bool
  /-- Whether `fds[0].revents & POLLIN` is non-zero, line 316 -/
  v4l2_pollin : Bool
  /-- Return value of `getchar()`, line 287 -/
  getchar_ret : Int
  /-- Return value of `poll(&pfd_cap, 1, 1000)`, line 294 -/
  poll_cap_ret : Int
  /-- Slot index and `bytesused` of the `VIDIOC_DQBUF` of line 299, `none` if it fails -/
  dqbuf_snapshot : Option (Nat × Nat)
  /-- Return value of `open`, line 302 -/
  fd_out : Int
  /-- Return value of the `VIDIOC_QBUF` of line 309 -/
  qbuf_snapshot : Int
  /-- Slot index and `bytesused` of the `VIDIOC_DQBUF` of line 321, `none` if it fails -/
  dqbuf_display : Option (Nat × Nat)
  /-- What libjpeg does with the frame inside `fb_draw_buffer`, line 323 -/
  decode : Decode
  /-- Return value of the `VIDIOC_QBUF` of line 326 -/
  qbuf_display : Int

/-- Lines 299-310: the snapshot path once a frame is ready. -/
def snapshot (g : Globals) (a : Answers) : Globals × List Op :=
  match a.dqbuf_snapshot with
  | some (index, bytesused) =>
    ({ g with file_cnt := int_add g.file_cnt 1 },
      [Op.ioctl_dqbuf g.v4l2_fd (some index), Op.sprintf (filename g.file_cnt),
        Op.sys_open (filename g.file_cnt) a.fd_out]
      ++ (if a.fd_out > 0 then
            [Op.write a.fd_out index bytesused, Op.close a.fd_out,
              Op.printf ("Saved to " ++ filename g.file_cnt ++ "\n")]
          else [])
      ++ [Op.ioctl_qbuf g.v4l2_fd index a.qbuf_snapshot])
  | none => (g, [Op.ioctl_dqbuf g.v4l2_fd none])

/-- Lines 286-313: handling of the keyboard input. -/
def handle_input (g : Globals) (a : Answers) : Globals × List Op :=
  if a.stdin_pollin then
    if a.getchar_ret = 10 then
      if a.poll_cap_ret > 0 then
        ((snapshot g a).1,
          [Op.getchar a.getchar_ret,
            Op.printf "Capture command received! Saving next valid frame...\n",
            Op.poll 1 1000 a.poll_cap_ret] ++ (snapshot g a).2)
      else
        (g, [Op.getchar a.getchar_ret,
          Op.printf "Capture command received! Saving next valid frame...\n",
          Op.poll 1 1000 a.poll_cap_ret])
    else (g, [Op.getchar a.getchar_ret])
  else (g, [])

/-- Lines 316-333: handling of the camera data; the Boolean is `true` when the loop is
left through the `break` of line 328. When libjpeg ends the process inside
`fb_draw_buffer` the operations end with `Op.exit` and line 326 is not reached. -/
def handle_capture (g : Globals) (a : Answers) : List Op × Bool :=
  if a.v4l2_pollin then
    match a.dqbuf_display with
    | some (index, bytesused) =>
      if a.decode = Decode.error_exit then
        ([Op.ioctl_dqbuf g.v4l2_fd (some index), Op.fb_draw_buffer index bytesused a.decode,
          Op.exit 1], false)
      else if a.qbuf_display < 0 then
        ([Op.ioctl_dqbuf g.v4l2_fd (some index), Op.fb_draw_buffer index bytesused a.decode,
          Op.ioctl_qbuf g.v4l2_fd index a.qbuf_display, Op.perror "VIDIOC_QBUF in loop"], true)
      else
        ([Op.ioctl_dqbuf g.v4l2_fd (some index), Op.fb_draw_buffer index bytesused a.decode,
          Op.ioctl_qbuf g.v4l2_fd index a.qbuf_display], false)
    | none => ([Op.ioctl_dqbuf g.v4l2_fd none, Op.perror "VIDIOC_DQBUF"], false)
  else ([], false)

/-- Whether the process ended inside the operations (`exit` was called). -/
def exited (ops : List Op) : Bool :=
  ops.any fun op => match op with
    | Op.exit _ => true
    | _ => false

/-- Lines 270-333: one iteration of `while(1)`. Returns the state, the operations of the
iteration in program order, and whether the iteration left the loop with `break`. -/
def iteration (g : Globals) (a : Answers) : Globals × List Op × Bool :=
  if a.poll_ret < 0 then (g, [Op.poll 2 2000 a.poll_ret, Op.perror "poll error"], true)
  else if a.poll_ret = 0 then (g, [Op.poll 2 2000 a.poll_ret, Op.printf "poll timeout\n"], false)
  else
    ((handle_input g a).1,
      Op.poll 2 2000 a.poll_ret
        :: ((handle_input g a).2 ++ (handle_capture (handle_input g a).1 a).1),
      (handle_capture (handle_input g a).1 a).2)

/-- Lines 269-334: the loop run against the answers of the environment, one entry per
iteration, until an iteration breaks, the process exits, or the answers are used up.
Returns the state, the operations in program order, and whether the loop was left with
`break`. -/
def main_loop : Globals → List Answers → Globals × List Op × Bool
  | g, [] => (g, [], false)
  | g, a :: as =>
    if (iteration g a).2.2 then ((iteration g a).1, (iteration g a).2.1, true)
    else if exited (iteration g a).2.1 then ((iteration g a).1, (iteration g a).2.1, false)
    else
      ((main_loop (iteration g a).1 as).1,
        (iteration g a).2.1 ++ (main_loop (iteration g a).1 as).2.1,
        (main_loop (iteration g a).1 as).2.2)

/-! ## Reading a trace -/

/-- Slots with the process after a trace: a successful `VIDIOC_DQBUF` hands its slot to
the process, a `VIDIOC_QBUF` that succeeds hands the slot back to the kernel, a
`VIDIOC_QBUF` that fails (negative return value) leaves it where it was; `held` are the
slots with the process before the trace. -/
def with_process : List Nat → List Op → List Nat
  | held, [] => held
  | held, Op.ioctl_dqbuf _ (some i) :: ops => with_process (i :: held) ops
  | held, Op.ioctl_qbuf _ i ret :: ops =>
    with_process (if ret < 0 then held else held.erase i) ops
  | held, _ :: ops => with_process held ops

/-- The dequeue/requeue discipline of a trace, starting with slot `held` with the process:
a `VIDIOC_DQBUF` may only be issued when no slot is with the process, a `VIDIOC_QBUF` only
for the slot that is with the process, which it hands back unless it fails. The result is
`none` when the trace breaks the discipline, otherwise the slot with the process at the
end of the trace. -/
def requeue_discipline : Option Nat → List Op → Option (Option Nat)
  | held, [] => some held
  | held, Op.ioctl_dqbuf _ result :: ops =>
    if held = none then requeue_discipline result ops else none
  | held, Op.ioctl_qbuf _ i ret :: ops =>
    if held = some i then requeue_discipline (if ret < 0 then held else none) ops else none
  | held, _ :: ops => requeue_discipline held ops

/-- Number of frames dequeued in a trace (successful `VIDIOC_DQBUF` calls). -/
def dequeued_frames (ops : List Op) : Nat :=
  (ops.filter fun op => match op with
    | Op.ioctl_dqbuf _ (some _) => true
    | _ => false).length

/-- Number of user commands read in a trace (`getchar` calls). -/
def commands_read (ops : List Op) : Nat :=
  (ops.filter fun op => match op with
    | Op.getchar _ => true
    | _ => false).length

/-- Number of frames handed to `fb_draw_buffer` in a trace. -/
def frames_drawn (ops : List Op) : Nat :=
  (ops.filter fun op => match op with
    | Op.fb_draw_buffer _ _ _ => true
    | _ => false).length

/-- The file names produced by the `sprintf` of line 301, in program order. -/
def snapshot_names : List Op → List String
  | [] => []
  | Op.sprintf name :: ops => name :: snapshot_names ops
  | _ :: ops => snapshot_names ops

/-- The device calls of a trace: `ioctl` operations only. -/
def ioctl_calls (ops : List Op) : List Op :=
  ops.filter fun op => match op with
    | Op.ioctl_dqbuf _ _ => true
    | Op.ioctl_qbuf _ _ _ => true
    | Op.ioctl_querybuf _ _ => true
    | Op.ioctl_streamoff _ => true
    | _ => false

/-! ## Concrete inputs -/

/-- A state after a successful start-up: framebuffer mapped at `4096` on descriptor 3,
camera on descriptor 4 with four slots mapped. -/
def running_state : Globals :=
  { fbp := 4096, screensize := 64, fbfd := 3, v4l2_fd := 4, buffer_count := 4,
    v4l2_bufs := fun i => if i < 4 then 8192 + 1024 * (i : Int) else 0, file_cnt := 0 }

/-- The state at line 230: framebuffer mapped, camera opened, no buffer requested yet. -/
def opened_state : Globals :=
  { fbp := 4096, screensize := 64, fbfd := 3, v4l2_fd := 4, buffer_count := 0,
    v4l2_bufs := fun _ => 0, file_cnt := 0 }

/-- The state before anything was opened: the initial values of the globals. -/
def initial_state : Globals :=
  { fbp := 0, screensize := 0, fbfd := 0, v4l2_fd := -1, buffer_count := 0,
    v4l2_bufs := fun _ => 0, file_cnt := 0 }

/-- An iteration in which both the keyboard and the camera are ready, Enter was pressed,
slot 0 is dequeued for the snapshot and slot 1 for the display, and every call succeeds. -/
def both_ready : Answers :=
  { poll_ret := 2, stdin_pollin := true, v4l2_pollin := true, getchar_ret := 10,
    poll_cap_ret := 1, dqbuf_snapshot := some (0, 1000), fd_out := 5, qbuf_snapshot := 0,
    dqbuf_display := some (1, 1000), decode := Decode.drawn, qbuf_display := 0 }

/-- As `both_ready`, but the `VIDIOC_QBUF` of the snapshot path (line 309) fails. -/
def snapshot_requeue_fails : Answers :=
  { both_ready with qbuf_snapshot := -1 }

/-- As `both_ready`, but the `VIDIOC_QBUF` of the display path (line 326) fails. -/
def display_requeue_fails : Answers :=
  { both_ready with qbuf_display := -1 }

/-- An iteration in which only the camera is ready, slot 1 is dequeued for the display and
libjpeg meets a fatal error in the frame. -/
def decode_fails : Answers :=
  { both_ready with stdin_pollin := false, decode := Decode.error_exit }

/-! ## Properties of fb_draw_buffer -/

theorem mem_fb_draw_stores (vinfo : fb_var_screeninfo) (finfo : fb_fix_screeninfo)
    (cinfo : jpeg_decompress_struct) (s : Int × Nat) :
    s ∈ fb_draw_stores vinfo finfo cinfo ↔
      ∃ r, r < cinfo.output_height ∧ surface_row vinfo cinfo r < vinfo.yres ∧
        ∃ n, n < cinfo.output_width ∧ surface_col vinfo cinfo n < vinfo.xres ∧
          s ∈ store_pixel vinfo (pixel_location vinfo finfo cinfo r n) (cinfo.scanlines r) n := by
  unfold fb_draw_stores draw_scanline
  simp only [List.mem_flatMap, List.mem_range]
  constructor
  · rintro ⟨r, hr, hs⟩
    split at hs
    · rename_i hrow
      simp only [List.mem_flatMap, List.mem_range] at hs
      obtain ⟨n, hn, hs⟩ := hs
      split at hs
      · rename_i hcol
        exact ⟨r, hr, hrow, n, hn, hcol, hs⟩
      · simp at hs
    · simp at hs
  · rintro ⟨r, hr, hrow, n, hn, hcol, hs⟩
    refine ⟨r, hr, ?_⟩
    rw [if_pos hrow]
    simp only [List.mem_flatMap, List.mem_range]
    exact ⟨n, hn, by rw [if_pos hcol]; exact hs⟩

theorem x_start_eq (vinfo : fb_var_screeninfo) (cinfo : jpeg_decompress_struct) :
    x_start vinfo cinfo
      = ((u32_of_int ((vinfo.xres : Int) - (cinfo.output_width : Int)) / 2 : Nat) : Int) := by
  unfold x_start int_of_u32 u32_of_int
  simp only
  split_ifs <;> omega

theorem y_start_eq (vinfo : fb_var_screeninfo) (cinfo : jpeg_decompress_struct) :
    y_start vinfo cinfo
      = ((u32_of_int ((vinfo.yres : Int) - (cinfo.output_height : Int)) / 2 : Nat) : Int) := by
  unfold y_start int_of_u32 u32_of_int
  simp only
  split_ifs <;> omega

theorem u32_of_int_add (n : Nat) (z : Nat) (h : n + z < 4294967296) :
    u32_of_int (int_add (int_of_u32 n) (z : Int)) = n + z := by
  unfold int_add int_of_u32 u32_of_int
  split_ifs <;> omega

theorem pixel_location_of_fit (vinfo : fb_var_screeninfo) (finfo : fb_fix_screeninfo)
    (cinfo : jpeg_decompress_struct) (r n xo : Nat) (hxo : x_start vinfo cinfo = (xo : Int))
    (hfit : surface_row vinfo cinfo r * finfo.line_length
        + (xo + n) * (vinfo.bits_per_pixel / 8) < 4294967296)
    (hB : 0 < vinfo.bits_per_pixel / 8) :
    pixel_location vinfo finfo cinfo r n
      = ((surface_row vinfo cinfo r * finfo.line_length
          + (xo + n) * (vinfo.bits_per_pixel / 8) : Nat) : Int) := by
  unfold pixel_location location
  rw [hxo]
  have h1 := Nat.add_mul xo n (vinfo.bits_per_pixel / 8)
  have h2 : xo ≤ xo * (vinfo.bits_per_pixel / 8) := Nat.le_mul_of_pos_right _ hB
  have h3 : n ≤ n * (vinfo.bits_per_pixel / 8) := Nat.le_mul_of_pos_right _ hB
  have hxo' : u32_of_int (xo : Int) = xo := by unfold u32_of_int; omega
  have hn' : u32_of_int (int_of_u32 n) = n := by
    unfold u32_of_int int_of_u32; split_ifs <;> omega
  rw [hxo', hn']
  unfold u32
  generalize surface_row vinfo cinfo r * finfo.line_length = a at *
  generalize xo * (vinfo.bits_per_pixel / 8) = b at *
  generalize n * (vinfo.bits_per_pixel / 8) = c at *
  generalize (xo + n) * (vinfo.bits_per_pixel / 8) = d at *
  omega

theorem store_pixel_offset (vinfo : fb_var_screeninfo) (pl : Int) (row : Nat → Nat) (n : Nat)
    (s : Int × Nat) (hs : s ∈ store_pixel vinfo pl row n) :
    ∃ k : Nat, k < vinfo.bits_per_pixel / 8 ∧ s.1 = pl + (k : Int) := by
  unfold store_pixel at hs
  split_ifs at hs with h32 h24
  · simp only [List.mem_cons, List.mem_singleton, List.not_mem_nil, or_false] at hs
    rcases hs with hs | hs | hs | hs
    · exact ⟨0, by rw [h32]; decide, by rw [hs]; simp⟩
    · exact ⟨1, by rw [h32]; decide, by rw [hs]; simp⟩
    · exact ⟨2, by rw [h32]; decide, by rw [hs]; simp⟩
    · exact ⟨3, by rw [h32]; decide, by rw [hs]; simp⟩
  · simp only [List.mem_cons, List.mem_singleton, List.not_mem_nil, or_false] at hs
    rcases hs with hs | hs | hs
    · exact ⟨0, by rw [h24]; decide, by rw [hs]; simp⟩
    · exact ⟨1, by rw [h24]; decide, by rw [hs]; simp⟩
    · exact ⟨2, by rw [h24]; decide, by rw [hs]; simp⟩
  · simp at hs

theorem three_le_bytes_per_pixel (vinfo : fb_var_screeninfo)
    (hbpp : vinfo.bits_per_pixel = 24 ∨ vinfo.bits_per_pixel = 32) :
    3 ≤ vinfo.bits_per_pixel / 8 := by
  rcases hbpp with h | h
  · rw [h]
  · rw [h]; decide

theorem offset_lt_extent (row col xres yres B k : Nat) (hrow : row < yres) (hcol : col < xres)
    (hk : k < B) : row * (xres * B) + col * B + k < xres * yres * B := by
  have h1 : (col + 1) * B ≤ xres * B := Nat.mul_le_mul_right _ hcol
  have h2 : (row + 1) * (xres * B) ≤ yres * (xres * B) := Nat.mul_le_mul_right _ hrow
  have h3 : yres * (xres * B) = xres * yres * B := by ring
  rw [Nat.add_mul, Nat.one_mul] at h1 h2
  omega

theorem screensize_eq (vinfo : fb_var_screeninfo)
    (hbpp : vinfo.bits_per_pixel = 24 ∨ vinfo.bits_per_pixel = 32)
    (hsize : vinfo.xres * vinfo.yres * vinfo.bits_per_pixel < 4294967296) :
    screensize vinfo = ((vinfo.xres * vinfo.yres * (vinfo.bits_per_pixel / 8) : Nat) : Int) := by
  unfold screensize u32
  rcases hbpp with h | h <;> rw [h] at hsize ⊢ <;>
    generalize vinfo.xres * vinfo.yres = p at * <;> omega

theorem surface_col_of_int_range (vinfo : fb_var_screeninfo) (cinfo : jpeg_decompress_struct)
    (n : Nat) (hn : n < 2147483648) :
    surface_col vinfo cinfo n
      = n + u32_of_int ((vinfo.xres : Int) - (cinfo.output_width : Int)) / 2 := by
  unfold surface_col
  rw [x_start_eq]
  refine u32_of_int_add _ _ ?_
  have : u32_of_int ((vinfo.xres : Int) - (cinfo.output_width : Int)) < 4294967296 := by
    unfold u32_of_int; omega
  omega

/-- C10. When the surface has 24 or 32 bits per pixel, its line length is
`xres * (bits_per_pixel / 8)` and `xres * yres * bits_per_pixel < 2^32`, every byte offset
stored to by a render of an image of any height, and of any width that the `int` column
counter of line 117 can hold, lies in `[0, screensize)`, the length mapped by `fb_init`. -/
theorem fb_draw_buffer_within_mapping (vinfo : fb_var_screeninfo) (finfo : fb_fix_screeninfo)
    (cinfo : jpeg_decompress_struct)
    (hbpp : vinfo.bits_per_pixel = 24 ∨ vinfo.bits_per_pixel = 32)
    (hline : finfo.line_length = vinfo.xres * (vinfo.bits_per_pixel / 8))
    (hsize : vinfo.xres * vinfo.yres * vinfo.bits_per_pixel < 4294967296)
    (hwidth : cinfo.output_width < 2147483648) :
    ∀ s ∈ fb_draw_stores vinfo finfo cinfo, 0 ≤ s.1 ∧ s.1 < screensize vinfo := by
  intro s hs
  obtain ⟨r, _, hrow, n, hn, hcol, hs⟩ := (mem_fb_draw_stores vinfo finfo cinfo s).1 hs
  rw [surface_col_of_int_range vinfo cinfo n (by omega)] at hcol
  have hB3 := three_le_bytes_per_pixel vinfo hbpp
  have hext : vinfo.xres * vinfo.yres * (vinfo.bits_per_pixel / 8) < 4294967296 := by
    have : vinfo.xres * vinfo.yres * (vinfo.bits_per_pixel / 8)
        ≤ vinfo.xres * vinfo.yres * vinfo.bits_per_pixel :=
      Nat.mul_le_mul_left _ (Nat.div_le_self _ _)
    omega
  have hlt : ∀ k, k < vinfo.bits_per_pixel / 8 →
      surface_row vinfo cinfo r * finfo.line_length
        + (u32_of_int ((vinfo.xres : Int) - (cinfo.output_width : Int)) / 2 + n)
            * (vinfo.bits_per_pixel / 8) + k
        < vinfo.xres * vinfo.yres * (vinfo.bits_per_pixel / 8) := by
    intro k hk
    rw [hline]
    exact offset_lt_extent _ _ _ _ _ _ hrow (by omega) hk
  have hloc := pixel_location_of_fit vinfo finfo cinfo r n _ (x_start_eq vinfo cinfo)
    (by have := hlt 0 (by omega); omega) (by omega)
  obtain ⟨k, hk, hsk⟩ := store_pixel_offset vinfo _ _ _ s hs
  have := hlt k hk
  rw [screensize_eq vinfo hbpp hsize, hsk, hloc]
  omega

/-- An image wider than the surface (and narrower than `2^31`) is not drawn at all: the
unsigned subtraction of line 100 wraps, `x_start` is positive and so large that no column
passes the test of line 119. -/
theorem fb_draw_stores_of_wider (vinfo : fb_var_screeninfo) (finfo : fb_fix_screeninfo)
    (cinfo : jpeg_decompress_struct) (hW : vinfo.xres < cinfo.output_width)
    (hW31 : cinfo.output_width < 2147483648) :
    0 < x_start vinfo cinfo ∧ fb_draw_stores vinfo finfo cinfo = [] := by
  constructor
  · rw [x_start_eq]
    unfold u32_of_int
    omega
  · apply List.eq_nil_iff_forall_not_mem.2
    intro s hs
    obtain ⟨r, _, _, n, hn, hcol, _⟩ := (mem_fb_draw_stores vinfo finfo cinfo s).1 hs
    rw [surface_col_of_int_range vinfo cinfo n (by omega)] at hcol
    unfold u32_of_int at hcol
    omega

/-- C2. Evaluation at a 6 x 2 image on a 4 x 4 surface (32 bits per pixel, line length
16): the unsigned subtraction of line 100 wraps, `x_start` is `2147483647` and not `0`
(the clamp of line 102 does not fire), while `y_start` is `1`; no column passes the test
of line 119 and the render stores nothing, although columns 0 to 3 of the image lie on
the surface. -/
theorem fb_draw_buffer_wide_image_not_drawn :
    x_start ⟨4, 4, 32⟩ (test_image 6 2) = 2147483647 ∧
    y_start ⟨4, 4, 32⟩ (test_image 6 2) = 1 ∧
    fb_draw_stores ⟨4, 4, 32⟩ ⟨16⟩ (test_image 6 2) = [] := by
  decide

/-- C3. The stores for one placed pixel with samples `R = row[3n]`, `G = row[3n+1]`,
`B = row[3n+2]` at pixel base `pl`: at 32 bits per pixel exactly the four bytes
`[B, G, R, 0]` at offsets 0 to 3; at 24 bits per pixel exactly the three bytes `[B, G, R]`
at offsets 0 to 2; at any other depth none, and then a whole render stores nothing and
leaves every byte of the surface as it was, whatever the image (or header failure). -/
theorem store_pixel_by_depth (vinfo : fb_var_screeninfo) (finfo : fb_fix_screeninfo)
    (pl : Int) (row : Nat → Nat) (n : Nat) :
    (vinfo.bits_per_pixel = 32 →
      store_pixel vinfo pl row n
        = [(pl, row (n * 3 + 2)), (pl + 1, row (n * 3 + 1)), (pl + 2, row (n * 3 + 0)),
            (pl + 3, 0)]) ∧
    (vinfo.bits_per_pixel = 24 →
      store_pixel vinfo pl row n
        = [(pl, row (n * 3 + 2)), (pl + 1, row (n * 3 + 1)), (pl + 2, row (n * 3 + 0))]) ∧
    (vinfo.bits_per_pixel ≠ 32 → vinfo.bits_per_pixel ≠ 24 →
      store_pixel vinfo pl row n = [] ∧
      (∀ cinfo, fb_draw_stores vinfo finfo cinfo = []) ∧
      (∀ jpeg fbp, fb_draw_buffer vinfo finfo jpeg fbp = fbp)) := by
  refine ⟨fun h => by simp [store_pixel, h], fun h => by simp [store_pixel, h], ?_⟩
  intro h32 h24
  have hpix : ∀ pl row n, store_pixel vinfo pl row n = [] := by
    intro pl row n
    simp [store_pixel, h32, h24]
  have hnone : ∀ cinfo, fb_draw_stores vinfo finfo cinfo = [] := by
    intro cinfo
    apply List.eq_nil_iff_forall_not_mem.2
    intro s hs
    obtain ⟨r, _, _, m, _, _, hs⟩ := (mem_fb_draw_stores vinfo finfo cinfo s).1 hs
    rw [hpix] at hs
    exact absurd hs (List.not_mem_nil _)
  refine ⟨hpix pl row n, hnone, ?_⟩
  intro jpeg fbp
  cases jpeg with
  | none => rfl
  | some cinfo => simp [fb_draw_buffer, hnone]

theorem store_pixel_by_depth_witness :
    fb_draw_stores ⟨4, 4, 16⟩ ⟨8⟩ (test_image 2 2) = [] ∧
    store_pixel ⟨4, 4, 32⟩ 40 (fun i => i) 1 = [(40, 5), (41, 4), (42, 3), (43, 0)] :=
  ⟨(store_pixel_by_depth ⟨4, 4, 16⟩ ⟨8⟩ 0 (fun i => i) 0).2.2 (by decide) (by decide)
      |>.2.1 (test_image 2 2),
    (store_pixel_by_depth ⟨4, 4, 32⟩ ⟨16⟩ 40 (fun i => i) 1).1 rfl⟩

theorem fb_draw_buffer_within_mapping_witness :
    ((30 : Int), 12) ∈ fb_draw_stores ⟨4, 4, 24⟩ ⟨12⟩ (test_image 2 2) ∧
      (0 : Int) ≤ 30 ∧ (30 : Int) < screensize ⟨4, 4, 24⟩ :=
  ⟨by decide,
    fb_draw_buffer_within_mapping ⟨4, 4, 24⟩ ⟨12⟩ (test_image 2 2) (Or.inl rfl) (by decide)
      (by decide) (by decide) (30, 12) (by decide)⟩

/-! ## Properties of cleanup and of the buffer set-up -/

/-- C4, the claim fails: on a running state a second `cleanup` issues every operation of
the first once more (here with the slot queries failing on the closed descriptor), so two
invocations do not produce the operation sequence of one. -/
theorem cleanup_twice_adds_operations :
    (cleanup_twice running_state (fun _ => some 1024) (fun _ => none)).2
        ≠ (cleanup running_state (fun _ => some 1024)).2 ∧
    (cleanup running_state (fun _ => none)).2
        = [Op.ioctl_streamoff 4, Op.printf "V4L2 stream stopped.\n",
            Op.ioctl_querybuf 4 0, Op.ioctl_querybuf 4 1, Op.ioctl_querybuf 4 2,
            Op.ioctl_querybuf 4 3, Op.printf "V4L2 buffers unmapped.\n", Op.close 4,
            Op.munmap 4096 64, Op.printf "Framebuffer unmapped.\n", Op.close 3] := by
  decide

/-- C4 as amended. `cleanup` leaves the process state as it found it, so a second
invocation runs on the same state as the first: the operations of two invocations are
those of the first followed by those of the second, which has the same guards to pass,
and the second invocation adds no operation exactly when `v4l2_fd` is `-1`, `fbp` is null
and `fbfd` is not positive, that is when the first has nothing to release either. -/
theorem cleanup_twice_repeats (g : Globals) (querybuf₁ querybuf₂ : Nat → Option Nat) :
    (cleanup g querybuf₁).1 = g ∧
    (cleanup_twice g querybuf₁ querybuf₂).1 = g ∧
    (cleanup_twice g querybuf₁ querybuf₂).2
      = (cleanup g querybuf₁).2 ++ (cleanup g querybuf₂).2 ∧
    ((cleanup g querybuf₂).2 = [] ↔ g.v4l2_fd = -1 ∧ g.fbp = 0 ∧ g.fbfd ≤ 0) ∧
    ((cleanup g querybuf₂).2 = [] ↔ (cleanup g querybuf₁).2 = []) := by
  have hnil : ∀ q, (cleanup g q).2 = [] ↔ g.v4l2_fd = -1 ∧ g.fbp = 0 ∧ g.fbfd ≤ 0 := by
    intro q
    unfold cleanup
    by_cases h1 : g.v4l2_fd = -1 <;> by_cases h2 : g.fbp = 0 <;> by_cases h3 : g.fbfd ≤ 0 <;>
      simp [h1, h2, h3, not_lt.2, not_le.1]
  refine ⟨rfl, rfl, rfl, hnil _, ?_⟩
  rw [hnil, hnil]

theorem cleanup_twice_repeats_witness :
    (cleanup initial_state (fun _ => none)).2 = [] :=
  (cleanup_twice_repeats initial_state (fun _ => none) (fun _ => none)).2.2.2.1.2
    ⟨by decide, by decide, by decide⟩

theorem map_and_enqueue_indices (dev : Nat → SlotAnswers) (is : List Nat) (g : Globals) :
    ∀ i ∈ (map_and_enqueue dev is g).1, i ∈ is := by
  induction is generalizing g with
  | nil => simp [map_and_enqueue]
  | cons j js ih =>
    intro i hi
    unfold map_and_enqueue at hi
    split_ifs at hi
    · simp at hi
    · simp at hi; simp [hi]
    · simp at hi; simp [hi]
    · simp at hi; simp [hi]
    · simp only [List.mem_cons] at hi ⊢
      rcases hi with hi | hi
      · exact Or.inl hi
      · exact Or.inr (ih _ i hi)

theorem map_and_enqueue_buffer_count (dev : Nat → SlotAnswers) (is : List Nat) (g g1 : Globals)
    (h : (map_and_enqueue dev is g).2 = Except.ok g1) : g1.buffer_count = g.buffer_count := by
  induction is generalizing g with
  | nil =>
    simp only [map_and_enqueue, Except.ok.injEq] at h
    rw [← h]
  | cons j js ih =>
    unfold map_and_enqueue at h
    split_ifs at h
    exact (ih _ h).trans rfl

theorem map_and_enqueue_ok (dev : Nat → SlotAnswers) (is : List Nat) (g : Globals)
    (his : ∀ i ∈ is, i < 4)
    (hdev : ∀ i, 0 ≤ (dev i).querybuf_ret ∧ (dev i).mmap_ret ≠ -1 ∧ 0 ≤ (dev i).qbuf_ret) :
    ∃ g1, map_and_enqueue dev is g = (is, Except.ok g1) := by
  induction is generalizing g with
  | nil => exact ⟨g, rfl⟩
  | cons j js ih =>
    obtain ⟨h1, h2, h3⟩ := hdev j
    have hj : j < 4 := his j (List.mem_cons_self _ _)
    unfold map_and_enqueue
    rw [if_neg (by omega), if_neg (by omega), if_neg h2, if_neg (by omega)]
    obtain ⟨g1, hg1⟩ := ih
      { g with v4l2_bufs := fun k => if k = j then (dev j).mmap_ret else g.v4l2_bufs k }
      (fun i hi => his i (List.mem_cons_of_mem _ hi))
    exact ⟨g1, by simp only [hg1]⟩

/-! ## Properties of the main loop -/

theorem requeue_discipline_append (held : Option Nat) (ops₁ ops₂ : List Op) :
    requeue_discipline held (ops₁ ++ ops₂)
      = (requeue_discipline held ops₁).bind fun h => requeue_discipline h ops₂ := by
  induction ops₁ generalizing held with
  | nil => simp [requeue_discipline]
  | cons op ops ih =>
    cases op <;> simp only [List.cons_append, requeue_discipline] <;>
      first
        | exact ih _
        | (split_ifs <;> simp [ih])

theorem requeue_discipline_take (held : Option Nat) (ops : List Op) (final : Option Nat)
    (h : requeue_discipline held ops = some final) (k : Nat) :
    ∃ now, requeue_discipline held (ops.take k) = some now ∧
      with_process held.toList (ops.take k) = now.toList := by
  induction ops generalizing held k with
  | nil => exact ⟨held, by simp [requeue_discipline, with_process]⟩
  | cons op ops ih =>
    cases k with
    | zero => exact ⟨held, by simp [requeue_discipline, with_process]⟩
    | succ k =>
      cases op with
      | ioctl_dqbuf fd result =>
        simp only [requeue_discipline] at h
        split_ifs at h with hh
        subst hh
        obtain ⟨now, h1, h2⟩ := ih result h k
        refine ⟨now, by simp [requeue_discipline, h1], ?_⟩
        cases result with
        | none => simpa [with_process] using h2
        | some i => simpa [with_process] using h2
      | ioctl_qbuf fd i ret =>
        simp only [requeue_discipline] at h
        split_ifs at h with hh hret
        · subst hh
          obtain ⟨now, h1, h2⟩ := ih (some i) h k
          exact ⟨now, by simp [requeue_discipline, hret, h1],
            by simpa [with_process, hret] using h2⟩
        · subst hh
          obtain ⟨now, h1, h2⟩ := ih none h k
          exact ⟨now, by simp [requeue_discipline, hret, h1],
            by simpa [with_process, hret] using h2⟩
      | _ =>
        simp only [requeue_discipline] at h
        obtain ⟨now, h1, h2⟩ := ih held h k
        exact ⟨now, by simp [requeue_discipline, h1], by simpa [with_process] using h2⟩

theorem handle_input_discipline (g : Globals) (a : Answers) (hq : 0 ≤ a.qbuf_snapshot) :
    requeue_discipline none (handle_input g a).2 = some none ∧
      exited (handle_input g a).2 = false := by
  have hq' : ¬ a.qbuf_snapshot < 0 := by omega
  unfold handle_input snapshot
  cases a.dqbuf_snapshot with
  | none => split_ifs <;> simp [requeue_discipline, exited]
  | some p =>
    obtain ⟨index, bytesused⟩ := p
    by_cases h : a.fd_out > 0 <;> split_ifs <;> simp [h, hq', requeue_discipline, exited]

theorem handle_capture_discipline (g : Globals) (a : Answers) :
    ∃ h, requeue_discipline none (handle_capture g a).1 = some h ∧
      ((handle_capture g a).2 = false → exited (handle_capture g a).1 = false → h = none) := by
  unfold handle_capture
  cases a.dqbuf_display with
  | none => exact ⟨none, by split_ifs <;> simp [requeue_discipline]⟩
  | some p =>
    obtain ⟨index, bytesused⟩ := p
    by_cases hv : a.v4l2_pollin = true
    · by_cases he : a.decode = Decode.error_exit
      · exact ⟨some index, by simp [hv, he, requeue_discipline, exited]⟩
      · by_cases hr : a.qbuf_display < 0
        · exact ⟨some index, by simp [hv, he, hr, requeue_discipline]⟩
        · exact ⟨none, by simp [hv, he, hr, requeue_discipline]⟩
    · exact ⟨none, by simp [hv, requeue_discipline]⟩

theorem iteration_discipline (g : Globals) (a : Answers) (hq : 0 ≤ a.qbuf_snapshot) :
    ∃ h, requeue_discipline none (iteration g a).2.1 = some h ∧
      ((iteration g a).2.2 = false → exited (iteration g a).2.1 = false → h = none) := by
  obtain ⟨hi, hie⟩ := handle_input_discipline g a hq
  obtain ⟨h, hc, hce⟩ := handle_capture_discipline (handle_input g a).1 a
  unfold iteration
  split_ifs
  · exact ⟨none, by simp [requeue_discipline]⟩
  · exact ⟨none, by simp [requeue_discipline]⟩
  · refine ⟨h, by simp [requeue_discipline, requeue_discipline_append, hi, hc], ?_⟩
    intro h1 h2
    apply hce h1
    simp only [exited, List.any_cons, List.any_append, Bool.or_eq_false_iff] at h2 ⊢
    exact h2.2.2

theorem main_loop_discipline (as : List Answers) :
    ∀ g : Globals, (∀ a ∈ as, 0 ≤ a.qbuf_snapshot) →
      ∃ h, requeue_discipline none (main_loop g as).2.1 = some h := by
  induction as with
  | nil => exact fun g _ => ⟨none, by simp [main_loop, requeue_discipline]⟩
  | cons a as ih =>
    intro g hq
    obtain ⟨h, hd, hnone⟩ := iteration_discipline g a (hq a (List.mem_cons_self _ _))
    unfold main_loop
    split_ifs with hb he
    · exact ⟨h, hd⟩
    · exact ⟨h, hd⟩
    · obtain ⟨h', hd'⟩ := ih (iteration g a).1 (fun b hb' => hq b (List.mem_cons_of_mem _ hb'))
      have hn : h = none := hnone (by simpa using hb) (by simpa using he)
      subst hn
      exact ⟨h', by simp [requeue_discipline_append, hd, hd']⟩

/-- As long as no `VIDIOC_QBUF` of the snapshot path fails, at most one slot is with the
process after every prefix of the operations of the main loop. -/
theorem with_process_le_one (g : Globals) (as : List Answers)
    (hq : ∀ a ∈ as, 0 ≤ a.qbuf_snapshot) (k : Nat) :
    (with_process [] ((main_loop g as).2.1.take k)).length ≤ 1 := by
  obtain ⟨h, hd⟩ := main_loop_discipline as g hq
  obtain ⟨now, _, h2⟩ := requeue_discipline_take none _ h hd k
  simp only [Option.toList] at h2
  rw [h2]
  cases now <;> simp

/-- C5. Evaluation at the two failing inputs. First run, one iteration in which the
`VIDIOC_QBUF` of the snapshot path returns `-1` (line 309, result not looked at): slot 0
stays with the process, the display path of the same iteration dequeues slot 1, and after
that dequeue two slots are with the process; slot 0 is still there at the end of the
iteration. Second run: libjpeg meets a fatal error in the frame of slot 1 and its default
error manager (line 80) ends the process inside `fb_draw_buffer`; the dequeue of slot 1 is
followed by no `VIDIOC_QBUF` at all, and the next iteration is not run. -/
theorem main_loop_leaves_slots_with_process :
    ioctl_calls ((main_loop running_state [snapshot_requeue_fails]).2.1.take 12)
      = [Op.ioctl_dqbuf 4 (some 0), Op.ioctl_qbuf 4 0 (-1), Op.ioctl_dqbuf 4 (some 1)] ∧
    with_process [] ((main_loop running_state [snapshot_requeue_fails]).2.1.take 12)
      = [1, 0] ∧
    with_process [] (main_loop running_state [snapshot_requeue_fails]).2.1 = [0] ∧
    requeue_discipline none (main_loop running_state [snapshot_requeue_fails]).2.1 = none ∧
    (main_loop running_state [decode_fails, both_ready]).2.1
      = [Op.poll 2 2000 2, Op.ioctl_dqbuf 4 (some 1),
          Op.fb_draw_buffer 1 1000 Decode.error_exit, Op.exit 1] ∧
    with_process [] (main_loop running_state [decode_fails, both_ready]).2.1 = [1] := by
  decide

/-- C6. Evaluation at the failing input. First run: the `VIDIOC_QBUF` of the snapshot
path returns `-1` in the first iteration; its result is not looked at (line 309), the
display path of the same iteration dequeues and renders slot 1, and the next iteration
runs in full: the loop has not stopped. Second run: the same failure in the display path
(line 326) ends the loop at once, nothing of the next iteration is executed. -/
theorem snapshot_requeue_failure_does_not_stop_loop :
    ioctl_calls (main_loop running_state [snapshot_requeue_fails, both_ready]).2.1
      = [Op.ioctl_dqbuf 4 (some 0), Op.ioctl_qbuf 4 0 (-1),
          Op.ioctl_dqbuf 4 (some 1), Op.ioctl_qbuf 4 1 0,
          Op.ioctl_dqbuf 4 (some 0), Op.ioctl_qbuf 4 0 0,
          Op.ioctl_dqbuf 4 (some 1), Op.ioctl_qbuf 4 1 0] ∧
    frames_drawn (main_loop running_state [snapshot_requeue_fails, both_ready]).2.1 = 2 ∧
    (main_loop running_state [snapshot_requeue_fails, both_ready]).2.2 = false ∧
    ioctl_calls (main_loop running_state [display_requeue_fails, both_ready]).2.1
      = [Op.ioctl_dqbuf 4 (some 0), Op.ioctl_qbuf 4 0 0,
          Op.ioctl_dqbuf 4 (some 1), Op.ioctl_qbuf 4 1 (-1)] ∧
    (main_loop running_state [display_requeue_fails, both_ready]).2.2 = true := by
  decide

/-- C7, the claim fails: in an iteration where the keyboard and the camera are both ready
and Enter was pressed, two frames are dequeued, slot 0 by the snapshot path and slot 1 by
the display path. -/
theorem iteration_dequeues_two_frames :
    ¬ dequeued_frames (iteration running_state both_ready).2.1 ≤ 1 ∧
    ioctl_calls (iteration running_state both_ready).2.1
      = [Op.ioctl_dqbuf 4 (some 0), Op.ioctl_qbuf 4 0 0,
          Op.ioctl_dqbuf 4 (some 1), Op.ioctl_qbuf 4 1 0] := by
  decide

theorem dequeued_frames_append (ops₁ ops₂ : List Op) :
    dequeued_frames (ops₁ ++ ops₂) = dequeued_frames ops₁ + dequeued_frames ops₂ := by
  simp [dequeued_frames]

theorem commands_read_append (ops₁ ops₂ : List Op) :
    commands_read (ops₁ ++ ops₂) = commands_read ops₁ + commands_read ops₂ := by
  simp [commands_read]

theorem frames_drawn_append (ops₁ ops₂ : List Op) :
    frames_drawn (ops₁ ++ ops₂) = frames_drawn ops₁ + frames_drawn ops₂ := by
  simp [frames_drawn]

theorem snapshot_counts (g : Globals) (a : Answers) :
    dequeued_frames (snapshot g a).2 ≤ 1 ∧ commands_read (snapshot g a).2 = 0 ∧
      frames_drawn (snapshot g a).2 = 0 := by
  unfold snapshot
  cases a.dqbuf_snapshot with
  | none => simp [dequeued_frames, commands_read, frames_drawn]
  | some p =>
    obtain ⟨index, bytesused⟩ := p
    by_cases h : a.fd_out > 0 <;> simp [h, dequeued_frames, commands_read, frames_drawn]

theorem handle_input_counts (g : Globals) (a : Answers) :
    dequeued_frames (handle_input g a).2 ≤ 1 ∧ commands_read (handle_input g a).2 ≤ 1 ∧
      frames_drawn (handle_input g a).2 = 0 := by
  obtain ⟨h1, h2, h3⟩ := snapshot_counts g a
  unfold handle_input
  split_ifs
  · refine ⟨?_, ?_, ?_⟩
    · rw [dequeued_frames_append]
      have : dequeued_frames [Op.getchar a.getchar_ret,
          Op.printf "Capture command received! Saving next valid frame...\n",
          Op.poll 1 1000 a.poll_cap_ret] = 0 := by simp [dequeued_frames]
      omega
    · rw [commands_read_append]
      have : commands_read [Op.getchar a.getchar_ret,
          Op.printf "Capture command received! Saving next valid frame...\n",
          Op.poll 1 1000 a.poll_cap_ret] = 1 := by simp [commands_read]
      omega
    · rw [frames_drawn_append]
      have : frames_drawn [Op.getchar a.getchar_ret,
          Op.printf "Capture command received! Saving next valid frame...\n",
          Op.poll 1 1000 a.poll_cap_ret] = 0 := by simp [frames_drawn]
      omega
  · simp [dequeued_frames, commands_read, frames_drawn]
  · simp [dequeued_frames, commands_read, frames_drawn]
  · simp [dequeued_frames, commands_read, frames_drawn]

theorem handle_capture_counts (g : Globals) (a : Answers) :
    dequeued_frames (handle_capture g a).1 ≤ 1 ∧ commands_read (handle_capture g a).1 = 0 ∧
      frames_drawn (handle_capture g a).1 ≤ 1 := by
  unfold handle_capture
  cases a.dqbuf_display with
  | none => split_ifs <;> simp [dequeued_frames, commands_read, frames_drawn]
  | some p =>
    obtain ⟨index, bytesused⟩ := p
    split_ifs <;> simp [dequeued_frames, commands_read, frames_drawn]

/-- C7 as amended. In one iteration of the main loop at most one user command is read and
at most one frame is rendered, but up to two frames are dequeued: at most one by the input
handling (the snapshot) and at most one by the camera handling (the display). When `poll`
reports readiness the operations of the iteration are the `poll`, then those of the input
handling, then those of the camera handling; the input handling renders nothing and the
camera handling reads no command, so the camera handling runs after the input handling. -/
theorem iteration_handles_input_then_camera (g : Globals) (a : Answers) :
    commands_read (iteration g a).2.1 ≤ 1 ∧
    frames_drawn (iteration g a).2.1 ≤ 1 ∧
    dequeued_frames (iteration g a).2.1 ≤ 2 ∧
    dequeued_frames (handle_input g a).2 ≤ 1 ∧
    dequeued_frames (handle_capture (handle_input g a).1 a).1 ≤ 1 ∧
    frames_drawn (handle_input g a).2 = 0 ∧
    commands_read (handle_capture (handle_input g a).1 a).1 = 0 ∧
    (0 < a.poll_ret →
      (iteration g a).2.1
        = Op.poll 2 2000 a.poll_ret
            :: ((handle_input g a).2 ++ (handle_capture (handle_input g a).1 a).1)) := by
  obtain ⟨i1, i2, i3⟩ := handle_input_counts g a
  obtain ⟨c1, c2, c3⟩ := handle_capture_counts (handle_input g a).1 a
  have hpoll : dequeued_frames [Op.poll 2 2000 a.poll_ret] = 0 ∧
      commands_read [Op.poll 2 2000 a.poll_ret] = 0 ∧
      frames_drawn [Op.poll 2 2000 a.poll_ret] = 0 := by
    simp [dequeued_frames, commands_read, frames_drawn]
  have hops : 0 < a.poll_ret → (iteration g a).2.1
      = [Op.poll 2 2000 a.poll_ret]
          ++ ((handle_input g a).2 ++ (handle_capture (handle_input g a).1 a).1) := by
    intro h
    unfold iteration
    rw [if_neg (by omega), if_neg (by omega)]
    rfl
  refine ⟨?_, ?_, ?_, i1, c1, i3, c2, fun h => hops h⟩
  all_goals
    by_cases h : 0 < a.poll_ret
    · rw [hops h]
      simp only [dequeued_frames_append, commands_read_append, frames_drawn_append]
      omega
    · unfold iteration
      split_ifs <;> first
        | omega
        | simp [dequeued_frames, commands_read, frames_drawn]

theorem iteration_handles_input_then_camera_witness :
    (iteration running_state both_ready).2.1
      = Op.poll 2 2000 2
          :: ((handle_input running_state both_ready).2
            ++ (handle_capture (handle_input running_state both_ready).1 both_ready).1) :=
  (iteration_handles_input_then_camera running_state both_ready).2.2.2.2.2.2.2 (by decide)

/-! ## The slot count -/

theorem snapshot_buffer_count (g : Globals) (a : Answers) :
    (snapshot g a).1.buffer_count = g.buffer_count := by
  unfold snapshot
  cases a.dqbuf_snapshot with
  | none => rfl
  | some p => rfl

theorem handle_input_buffer_count (g : Globals) (a : Answers) :
    (handle_input g a).1.buffer_count = g.buffer_count := by
  unfold handle_input
  split_ifs
  · exact snapshot_buffer_count g a
  · rfl
  · rfl
  · rfl

theorem iteration_buffer_count (g : Globals) (a : Answers) :
    (iteration g a).1.buffer_count = g.buffer_count := by
  unfold iteration
  split_ifs
  · rfl
  · rfl
  · exact handle_input_buffer_count g a

theorem main_loop_buffer_count (g : Globals) (as : List Answers) :
    (main_loop g as).1.buffer_count = g.buffer_count := by
  induction as generalizing g with
  | nil => rfl
  | cons a as ih =>
    unfold main_loop
    split_ifs
    · exact iteration_buffer_count g a
    · exact iteration_buffer_count g a
    · exact (ih _).trans (iteration_buffer_count g a)

/-- A device that grants 6 buffers for the request of 4: the map-and-enqueue loop fills
the four entries of `v4l2_bufs` and then stores at index 4, outside the array. -/
theorem setup_buffers_of_six :
    setup_buffers opened_state (some 6) (fun i => ⟨0, 8192 + 1024 * (i : Int), 0⟩)
      = ([0, 1, 2, 3, 4], Except.error (Stop.out_of_bounds 4)) :=
  rfl

/-- C9, the claim fails: a device that grants 2 buffers for the request of 4 leaves
`buffer_count` at 2 after a successful set-up, and slots 0 and 1 only are mapped. -/
theorem buffer_count_follows_device :
    ∃ g1, setup_buffers opened_state (some 2) (fun i => ⟨0, 8192 + 1024 * (i : Int), 0⟩)
        = ([0, 1], Except.ok g1) ∧
      g1.buffer_count = 2 ∧ g1.buffer_count ≠ 4 :=
  ⟨_, rfl, by decide, by decide⟩

/-- C9 as amended. When the device grants at most 4 buffers for the request of 4:
after a completed set-up `buffer_count` is the granted count (so 4 when it grants 4); the
main loop and `cleanup` never change it; every index at which the map-and-enqueue loop and
`cleanup` access `v4l2_bufs` is less than 4; and a set-up in which every call succeeds
does complete. Nothing is stated for a granted count above 4. -/
theorem buffer_count_is_granted_count (g : Globals) (count : Nat) (dev : Nat → SlotAnswers)
    (hcount : count ≤ 4) :
    (∀ g1, (setup_buffers g (some count) dev).2 = Except.ok g1 →
      g1.buffer_count = (count : Int) ∧ (count = 4 → g1.buffer_count = 4) ∧
      (∀ as, (main_loop g1 as).1.buffer_count = g1.buffer_count) ∧
      (∀ querybuf, (cleanup g1 querybuf).1.buffer_count = g1.buffer_count) ∧
      (∀ i ∈ cleanup_indices g1, i < 4)) ∧
    ((∀ i, 0 ≤ (dev i).querybuf_ret ∧ (dev i).mmap_ret ≠ -1 ∧ 0 ≤ (dev i).qbuf_ret) →
      ∃ g1, (setup_buffers g (some count) dev).2 = Except.ok g1) ∧
    (∀ i ∈ (setup_buffers g (some count) dev).1, i < 4) := by
  have hconv : int_of_u32 count = (count : Int) := by
    unfold int_of_u32
    split_ifs <;> omega
  refine ⟨?_, ?_, ?_⟩
  · intro g1 h
    simp only [setup_buffers, request_buffers] at h
    have hbc : g1.buffer_count = (count : Int) :=
      (map_and_enqueue_buffer_count dev _ _ g1 h).trans hconv
    refine ⟨hbc, ?_, main_loop_buffer_count g1, fun _ => rfl, ?_⟩
    · intro h4
      rw [hbc, h4]
      rfl
    · intro i hi
      unfold cleanup_indices at hi
      rw [hbc, List.mem_range] at hi
      omega
  · intro hdev
    simp only [setup_buffers, request_buffers]
    obtain ⟨g1, hg1⟩ := map_and_enqueue_ok dev
      (List.range (int_of_u32 count).toNat) { g with buffer_count := int_of_u32 count }
      (by
        intro i hi
        rw [hconv, List.mem_range] at hi
        omega) hdev
    exact ⟨g1, by rw [hg1]⟩
  · intro i hi
    simp only [setup_buffers, request_buffers] at hi
    have hi' := map_and_enqueue_indices dev _ _ i hi
    rw [hconv, List.mem_range] at hi'
    omega

theorem buffer_count_is_granted_count_witness :
    3 ∈ (setup_buffers opened_state (some 4) (fun i => ⟨0, 8192 + 1024 * (i : Int), 0⟩)).1 ∧
      3 < 4 :=
  ⟨by decide,
    (buffer_count_is_granted_count opened_state 4
      (fun i => ⟨0, 8192 + 1024 * (i : Int), 0⟩) (by decide)).2.2 3 (by decide)⟩

/-! ## Snapshot file names -/

theorem toDigitsCore_eq (n : Nat) :
    ∀ fuel ds, n < fuel → Nat.toDigitsCore 10 fuel n ds = Nat.toDigits 10 n ++ ds := by
  induction n using Nat.strong_induction_on with
  | _ n ih =>
    intro fuel ds hf
    cases fuel with
    | zero => omega
    | succ f =>
      by_cases h : n / 10 = 0
      · simp [Nat.toDigits, Nat.toDigitsCore, h]
      · have h1 := ih (n / 10) (by omega) f (Nat.digitChar (n % 10) :: ds) (by omega)
        have h2 := ih (n / 10) (by omega) n [Nat.digitChar (n % 10)] (by omega)
        simp only [Nat.toDigits, Nat.toDigitsCore, h, if_false] at h1 h2 ⊢
        rw [h1, h2]
        simp

theorem toDigits_of_lt_ten (n : Nat) (h : n < 10) : Nat.toDigits 10 n = [Nat.digitChar n] := by
  have h0 : n / 10 = 0 := by omega
  have h1 : n % 10 = n := by omega
  simp [Nat.toDigits, Nat.toDigitsCore, h0, h1]

theorem toDigits_of_ten_le (n : Nat) (h : 10 ≤ n) :
    Nat.toDigits 10 n = Nat.toDigits 10 (n / 10) ++ [Nat.digitChar (n % 10)] := by
  have h0 : n / 10 ≠ 0 := by omega
  have h1 := toDigitsCore_eq (n / 10) n [Nat.digitChar (n % 10)] (by omega)
  simp only [Nat.toDigits, Nat.toDigitsCore, h0, if_false] at h1 ⊢
  exact h1

theorem fmt_04d_of_le (n : Nat) (h : n ≤ 9999) :
    fmt_04d (n : Int)
      = [Nat.digitChar (n / 1000), Nat.digitChar (n / 100 % 10), Nat.digitChar (n / 10 % 10),
          Nat.digitChar (n % 10)] := by
  unfold fmt_04d
  rw [if_neg (by omega), Int.natAbs_ofNat]
  by_cases h1 : n < 10
  · have e3 : n / 1000 = 0 := by omega
    have e2 : n / 100 % 10 = 0 := by omega
    have e1 : n / 10 % 10 = 0 := by omega
    have e0 : n % 10 = n := by omega
    rw [toDigits_of_lt_ten n h1, e3, e2, e1, e0]
    rfl
  · by_cases h2 : n < 100
    · have e3 : n / 1000 = 0 := by omega
      have e2 : n / 100 % 10 = 0 := by omega
      have e1 : n / 10 % 10 = n / 10 := by omega
      rw [toDigits_of_ten_le n (by omega), toDigits_of_lt_ten (n / 10) (by omega), e3, e2, e1]
      rfl
    · by_cases h3 : n < 1000
      · have e3 : n / 1000 = 0 := by omega
        have e2 : n / 100 % 10 = n / 10 / 10 := by omega
        rw [toDigits_of_ten_le n (by omega), toDigits_of_ten_le (n / 10) (by omega),
          toDigits_of_lt_ten (n / 10 / 10) (by omega), e3, e2]
        rfl
      · have e3 : n / 1000 = n / 10 / 10 / 10 := by omega
        have e2 : n / 100 % 10 = n / 10 / 10 % 10 := by omega
        rw [toDigits_of_ten_le n (by omega), toDigits_of_ten_le (n / 10) (by omega),
          toDigits_of_ten_le (n / 10 / 10) (by omega),
          toDigits_of_lt_ten (n / 10 / 10 / 10) (by omega), e3, e2]
        rfl

theorem digitChar_lt_digitChar : ∀ b < 10, ∀ a < b, Nat.digitChar a < Nat.digitChar b := by
  decide

theorem filename_toList (cnt : Int) :
    (filename cnt).toList = "capture_".toList ++ (fmt_04d cnt ++ ".jpg".toList) := by
  simp [filename]

theorem filename_lt_filename (i j : Nat) (hij : i < j) (hj : j ≤ 9999) :
    filename (i : Int) < filename (j : Int) := by
  rw [String.lt_iff_toList_lt, filename_toList, filename_toList,
    fmt_04d_of_le i (by omega), fmt_04d_of_le j hj]
  apply List.Lex.append_left
  simp only [List.cons_append]
  rcases Nat.lt_trichotomy (i / 1000) (j / 1000) with h | h | h
  · exact List.Lex.rel (digitChar_lt_digitChar _ (by omega) _ h)
  · rw [h]
    apply List.Lex.cons
    rcases Nat.lt_trichotomy (i / 100 % 10) (j / 100 % 10) with h2 | h2 | h2
    · exact List.Lex.rel (digitChar_lt_digitChar _ (by omega) _ h2)
    · rw [h2]
      apply List.Lex.cons
      rcases Nat.lt_trichotomy (i / 10 % 10) (j / 10 % 10) with h1 | h1 | h1
      · exact List.Lex.rel (digitChar_lt_digitChar _ (by omega) _ h1)
      · rw [h1]
        apply List.Lex.cons
        exact List.Lex.rel (digitChar_lt_digitChar _ (by omega) _ (by omega))
      · omega
    · omega
  · omega

theorem snapshot_names_append (ops₁ ops₂ : List Op) :
    snapshot_names (ops₁ ++ ops₂) = snapshot_names ops₁ ++ snapshot_names ops₂ := by
  induction ops₁ with
  | nil => rfl
  | cons op ops ih => cases op <;> simp [snapshot_names, ih]

theorem int_add_one (c : Int) (h0 : 0 ≤ c) (h1 : c < 2147483647) : int_add c 1 = c + 1 := by
  unfold int_add int_of_u32 u32_of_int
  split_ifs <;> omega

theorem handle_capture_names (g : Globals) (a : Answers) :
    snapshot_names (handle_capture g a).1 = [] := by
  unfold handle_capture
  cases a.dqbuf_display with
  | none => split_ifs <;> simp [snapshot_names]
  | some p =>
    obtain ⟨index, bytesused⟩ := p
    split_ifs <;> simp [snapshot_names]

theorem snapshot_names_of_snapshot (g : Globals) (a : Answers)
    (h0 : 0 ≤ g.file_cnt) (h1 : g.file_cnt < 2147483647) :
    ∃ k : Nat, k ≤ 1 ∧ (snapshot g a).1.file_cnt = g.file_cnt + (k : Int) ∧
      snapshot_names (snapshot g a).2
        = (List.range k).map fun (n : Nat) => filename (g.file_cnt + (n : Int)) := by
  unfold snapshot
  cases a.dqbuf_snapshot with
  | none => exact ⟨0, by omega, by simp, by simp [snapshot_names]⟩
  | some p =>
    obtain ⟨index, bytesused⟩ := p
    refine ⟨1, by omega, by simp [int_add_one g.file_cnt h0 h1], ?_⟩
    by_cases h : a.fd_out > 0 <;> simp [h, snapshot_names, List.range_succ]

theorem snapshot_names_of_handle_input (g : Globals) (a : Answers)
    (h0 : 0 ≤ g.file_cnt) (h1 : g.file_cnt < 2147483647) :
    ∃ k : Nat, k ≤ 1 ∧ (handle_input g a).1.file_cnt = g.file_cnt + (k : Int) ∧
      snapshot_names (handle_input g a).2
        = (List.range k).map fun (n : Nat) => filename (g.file_cnt + (n : Int)) := by
  unfold handle_input
  split_ifs
  · obtain ⟨k, hk, hc, hn⟩ := snapshot_names_of_snapshot g a h0 h1
    exact ⟨k, hk, hc, by simpa [snapshot_names] using hn⟩
  · exact ⟨0, by omega, by simp, by simp [snapshot_names]⟩
  · exact ⟨0, by omega, by simp, by simp [snapshot_names]⟩
  · exact ⟨0, by omega, by simp, by simp [snapshot_names]⟩

theorem snapshot_names_of_iteration (g : Globals) (a : Answers)
    (h0 : 0 ≤ g.file_cnt) (h1 : g.file_cnt < 2147483647) :
    ∃ k : Nat, k ≤ 1 ∧ (iteration g a).1.file_cnt = g.file_cnt + (k : Int) ∧
      snapshot_names (iteration g a).2.1
        = (List.range k).map fun (n : Nat) => filename (g.file_cnt + (n : Int)) := by
  unfold iteration
  split_ifs
  · exact ⟨0, by omega, by simp, by simp [snapshot_names]⟩
  · exact ⟨0, by omega, by simp, by simp [snapshot_names]⟩
  · obtain ⟨k, hk, hc, hn⟩ := snapshot_names_of_handle_input g a h0 h1
    refine ⟨k, hk, hc, ?_⟩
    simp only [snapshot_names, snapshot_names_append, handle_capture_names, List.append_nil]
    exact hn

theorem snapshot_names_of_main_loop (as : List Answers) :
    ∀ g : Globals, 0 ≤ g.file_cnt → g.file_cnt + (as.length : Int) < 2147483648 →
      ∃ k : Nat, k ≤ as.length ∧ (main_loop g as).1.file_cnt = g.file_cnt + (k : Int) ∧
        snapshot_names (main_loop g as).2.1
          = (List.range k).map fun (n : Nat) => filename (g.file_cnt + (n : Int)) := by
  induction as with
  | nil =>
    intro g _ _
    exact ⟨0, by simp, by simp [main_loop], by simp [main_loop, snapshot_names]⟩
  | cons a as ih =>
    intro g h0 h1
    simp only [List.length_cons, Nat.cast_add, Nat.cast_one] at h1
    obtain ⟨k, hk, hc, hn⟩ := snapshot_names_of_iteration g a h0 (by omega)
    unfold main_loop
    split_ifs
    · exact ⟨k, by simp only [List.length_cons]; omega, hc, hn⟩
    · exact ⟨k, by simp only [List.length_cons]; omega, hc, hn⟩
    · obtain ⟨k', hk', hc', hn'⟩ := ih (iteration g a).1 (by omega) (by omega)
      refine ⟨k + k', by simp only [List.length_cons]; omega, ?_, ?_⟩
      · simp only [hc', hc, Nat.cast_add]
        omega
      · simp only [snapshot_names_append, hn, hn', hc, List.range_add, List.map_append,
          List.map_map]
        congr 1
        apply List.map_congr_left
        intro n _
        simp only [Function.comp, Nat.cast_add]
        congr 1
        omega

/-- C8, the claim fails: the snapshot after `capture_9999.jpg` is named
`capture_10000.jpg`, which as a string is smaller than, not greater than, the earlier
name. -/
theorem filename_order_breaks_after_9999 :
    filename 9999 = "capture_9999.jpg" ∧ filename 10000 = "capture_10000.jpg" ∧
      filename 10000 < filename 9999 ∧ ¬ filename 9999 < filename 10000 := by
  refine ⟨by decide, by decide, ?_, ?_⟩
  · rw [String.lt_iff_toList_lt]
    decide
  · rw [String.lt_iff_toList_lt]
    decide

/-- C8 as amended. In a run that starts with `file_cnt = 0` the snapshots are named, in
order, from the counter values 0, 1, 2, ...: the name for counter value `n` is `capture_`,
the decimal digits of `n` padded with zeros to at least four digits, `.jpg`, so a later
snapshot has the greater counter value. For `n` up to 9999 the name has exactly four
digits, and among those names a later one is greater as a string. The run is shorter than
`2^31` iterations, the range of the `int` counter. -/
theorem snapshot_names_count_up (g : Globals) (as : List Answers)
    (hcnt : g.file_cnt = 0) (hlen : as.length < 2147483648) :
    (∃ k : Nat, snapshot_names (main_loop g as).2.1
        = (List.range k).map fun (n : Nat) => filename (n : Int)) ∧
    (∀ n : Nat, filename (n : Int)
        = "capture_" ++ String.mk (zero_pad 4 (Nat.toDigits 10 n)) ++ ".jpg") ∧
    (∀ n : Nat, n ≤ 9999 → filename (n : Int)
        = "capture_" ++ String.mk [Nat.digitChar (n / 1000), Nat.digitChar (n / 100 % 10),
            Nat.digitChar (n / 10 % 10), Nat.digitChar (n % 10)] ++ ".jpg") ∧
    (∀ i j : Nat, i < j → j ≤ 9999 → filename (i : Int) < filename (j : Int)) := by
  refine ⟨?_, ?_, ?_, filename_lt_filename⟩
  · obtain ⟨k, _, _, hn⟩ := snapshot_names_of_main_loop as g (by omega) (by omega)
    refine ⟨k, ?_⟩
    rw [hn, hcnt]
    simp
  · intro n
    unfold filename fmt_04d
    rw [if_neg (by omega), Int.natAbs_ofNat]
  · intro n hn
    unfold filename
    rw [fmt_04d_of_le n hn]

theorem snapshot_names_count_up_witness :
    filename ((41 : Nat) : Int) < filename ((9999 : Nat) : Int) :=
  (snapshot_names_count_up running_state [both_ready, both_ready] rfl (by decide)).2.2.2
    41 9999 (by decide) (by decide)

end CameraFb
